import Mathlib

/-
Verification of the Smart Compression Engine of the image-resizer-advanced
repository (src/compression.rs and src/simple.rs), as a shallow embedding.

Modelling conventions:
- u8 / u32 / u64 / usize values are Nat; where wrap-around can matter
  (the raw-size estimate, computed in u32) an explicit mod 2 ^ 32 is used.
  For the binary-search bounds we separately prove that all intermediate
  values stay inside [9, 96], so plain Nat is exact there.
- External encoder primitives (image, mozjpeg, oxipng, webp, ravif crates)
  are opaque parameters collected in the Encoders structure: the repository
  only composes them, so every theorem is stated for all encoders.
- Byte buffers are List Nat.
- f32 quality values that are exact small integers or dyadic rationals are
  modelled as Rat.  The one place where genuine binary32 rounding changes
  observable integer results (the legacy downscale fallback of simple.rs)
  uses an executable round-to-nearest-even model of binary32 (floatRN).
- The compression ratio (f32 division in the source) is modelled as exact
  Rat division of the same two operands.
-/

deriving instance DecidableEq for Except

set_option maxRecDepth 8000

namespace ImageResizer

/-- RGBA pixel, one Nat per u8 channel. -/
structure Pix where
  r : Nat
  g : Nat
  b : Nat
  a : Nat
deriving DecidableEq, Repr

/-- Channel layout of a decoded DynamicImage.  The source only distinguishes
Luma8, LumaA8, Rgb8, Rgba8 and a catch-all for every other variant. -/
inductive Layout where
  | luma8
  | lumaA8
  | rgb8
  | rgba8
  | other
deriving DecidableEq, Repr

/-- Decoded raster image: dimensions, channel layout of the original buffer,
and the pixel data as its RGBA view (the view to_rgba8 would produce). -/
structure Img where
  width : Nat
  height : Nat
  layout : Layout
  pixels : List Pix
deriving DecidableEq, Repr

/-- DynamicImage.to_rgba8: the pixel list already is the RGBA view. -/
def to_rgba8 (image : Img) : Img :=
  { image with layout := Layout.rgba8 }

/-- DynamicImage.to_rgb8: drops the alpha channel (set to full opacity). -/
def to_rgb8 (image : Img) : Img :=
  { image with
      layout := Layout.rgb8,
      pixels := image.pixels.map fun p => { p with a := 255 } }

/-- CompressionAlgorithm enum of compression.rs. -/
inductive CompressionAlgorithm where
  | auto
  | simple
  | standardJpeg
  | mozJpeg
  | standardPng
  | optiPng
  | oxiPng
  | pngQuant
  | webPLossy
  | webPLossless
  | avif
deriving DecidableEq, Repr

/-- CompressionOptions of compression.rs. -/
structure CompressionOptions where
  algorithm : CompressionAlgorithm
  quality : Option Nat
  target_size : Option Nat
  preserve_metadata : Bool
  optimize_for_web : Bool
deriving DecidableEq, Repr

/-- ImageAnalysis record.  The dominant_colors and average_complexity fields
of the source are omitted: no claim reads them and average_complexity is an
f32 mean of square roots. -/
structure ImageAnalysis where
  has_transparency : Bool
  color_count : Nat
  has_gradients : Bool
  is_photograph : Bool
deriving DecidableEq, Repr

/-- image::ImageFormat, restricted to the formats the engine emits. -/
inductive ImageFormat where
  | jpeg
  | png
  | webp
  | avif
deriving DecidableEq, Repr

/-- CompressionResult of compression.rs.  compression_ratio is f32 in the
source; modelled as exact Rat. -/
structure CompressionResult where
  data : List Nat
  format : ImageFormat
  algorithm_used : CompressionAlgorithm
  final_quality : Option Nat
  compression_ratio : Rat
deriving DecidableEq, Repr

/-- has_alpha_channel: any pixel with alpha below 255. -/
def has_alpha_channel (image : Img) : Bool :=
  image.pixels.any fun p => p.a < 255

/-- Inner loop of count_unique_colors: iterate over the pixels with their
index, insert every step-th pixel RGB triple into the set, and stop as soon
as the set has reached max_sample entries.  The HashSet is modelled as a
duplicate-free list. -/
def countColorsLoop (step max_sample : Nat) :
    List Pix → Nat → List (Nat × Nat × Nat) → Nat
  | [], _, colors => colors.length
  | p :: rest, i, colors =>
    if i % step = 0 then
      let c := (p.r, p.g, p.b)
      let colors' := if c ∈ colors then colors else c :: colors
      if max_sample ≤ colors'.length then colors'.length
      else countColorsLoop step max_sample rest (i + 1) colors'
    else countColorsLoop step max_sample rest (i + 1) colors

/-- count_unique_colors: sample stride is pixel count over the budget,
floored at 1; returns the cardinality of the collected RGB set. -/
def count_unique_colors (image : Img) (max_sample : Nat) : Nat :=
  let step := (image.pixels.length / max_sample).max 1
  countColorsLoop step max_sample image.pixels 0 []

/-- Squared RGB distance.  The source compares the f32 Euclidean distance
with 10.0; the operands are exact integers in f32, so that comparison is
exactly the integer comparison of the squared distance with 100. -/
def sqDist (c1 c2 : Pix) : Int :=
  ((c1.r : Int) - c2.r) ^ 2 + ((c1.g : Int) - c2.g) ^ 2 +
    ((c1.b : Int) - c2.b) ^ 2

/-- get_pixel on the RGBA view (row-major). -/
def getPixel (image : Img) (x y : Nat) : Pix :=
  image.pixels.getD (y * image.width + x) ⟨0, 0, 0, 0⟩

/-- Grid of sampled coordinates of analyze_complexity: every coordinate with
x and y multiples of 4 inside the (width-1) x (height-1) box. -/
def sampledCoords (width height : Nat) : List (Nat × Nat) :=
  (List.range (height - 1)).flatMap fun y =>
    (List.range (width - 1)).filterMap fun x =>
      if x % 4 = 0 ∧ y % 4 = 0 then some (x, y) else none

/-- analyze_complexity, gradient part: a sampled pixel is a gradient pixel
if the distance to its right or below neighbour exceeds 10.0 (squared: 100);
has_gradients holds when gradient pixels exceed a tenth of the sample count
(two samples per grid point).  The f32 average_complexity is omitted. -/
def analyzeComplexityGradients (image : Img) : Bool :=
  let coords := sampledCoords image.width image.height
  let gradient_pixels := coords.countP fun c =>
    let p1 := getPixel image c.1 c.2
    let p2 := getPixel image (c.1 + 1) c.2
    let p3 := getPixel image c.1 (c.2 + 1)
    decide (100 < sqDist p1 p2 ∨ 100 < sqDist p1 p3)
  let sample_count := 2 * coords.length
  decide (sample_count / 10 < gradient_pixels)

/-- analyze_image of compression.rs. -/
def analyze_image (image : Img) : ImageAnalysis :=
  let rgba := to_rgba8 image
  let has_transparency := has_alpha_channel rgba
  let color_count := count_unique_colors rgba 10000
  let has_gradients := analyzeComplexityGradients rgba
  let is_photograph := decide (1000 < color_count) && has_gradients
  { has_transparency := has_transparency
    color_count := color_count
    has_gradients := has_gradients
    is_photograph := is_photograph }

/-- select_best_algorithm: the Rust match with guards, written as the
equivalent first-match-wins conditional chain. -/
def select_best_algorithm (analysis : ImageAnalysis) : CompressionAlgorithm :=
  if analysis.has_transparency = false ∧ analysis.is_photograph = true then
    CompressionAlgorithm.mozJpeg
  else if analysis.has_transparency = true ∧ 256 < analysis.color_count then
    CompressionAlgorithm.webPLossy
  else if analysis.is_photograph = false ∧ analysis.color_count ≤ 256 then
    CompressionAlgorithm.oxiPng
  else if analysis.has_transparency = true then
    CompressionAlgorithm.webPLossy
  else
    CompressionAlgorithm.webPLossy

/-- recommended_quality of the CompressionAlgorithm impl. -/
def recommended_quality : CompressionAlgorithm → Nat
  | CompressionAlgorithm.standardJpeg => 85
  | CompressionAlgorithm.mozJpeg => 85
  | CompressionAlgorithm.webPLossy => 90
  | CompressionAlgorithm.avif => 80
  | _ => 100

/-- supports_quality of the CompressionAlgorithm impl. -/
def supports_quality (a : CompressionAlgorithm) : Bool :=
  match a with
  | CompressionAlgorithm.standardJpeg => true
  | CompressionAlgorithm.mozJpeg => true
  | CompressionAlgorithm.webPLossy => true
  | CompressionAlgorithm.avif => true
  | _ => false

/-- Row filters the PNG filter search of compress_optipng tries. -/
inductive PngFilter where
  | noFilter
  | sub
  | up
  | avg
  | paeth
  | adaptive
deriving DecidableEq, Repr

/-- oxipng StripChunks modes used by compress_oxipng. -/
inductive StripChunks where
  | safe
  | none
  | all
deriving DecidableEq, Repr

/-- A nonnegative dyadic rational n / 2 ^ e: the exact value set of the
nonnegative f32 quantities the repository manipulates (the quality round
trip of compress_avif and the downscale fallback of simple.rs), all far
from the binary32 overflow and subnormal ranges. -/
structure Dyadic where
  n : Nat
  e : Nat
deriving DecidableEq, Repr

/-- Exact product of dyadics (f32 multiplication before rounding). -/
def Dyadic.mul (a b : Dyadic) : Dyadic := ⟨a.n * b.n, a.e + b.e⟩

/-- Truncation toward zero to a natural (the as-u32 cast of a nonnegative
f32). -/
def Dyadic.floor (a : Dyadic) : Nat := a.n / 2 ^ a.e

/-- Rational value of a dyadic. -/
def Dyadic.val (a : Dyadic) : Rat := (a.n : Rat) / 2 ^ a.e

/-- Number of binary digits of n (0 for 0), with structural fuel; the fuel
300 used below covers every number arising here. -/
def bitLen : Nat → Nat → Nat
  | 0, _ => 0
  | fuel + 1, n => if n = 0 then 0 else bitLen fuel (n / 2) + 1

/-- Round a nonnegative dyadic to the nearest binary32 value: keep 24
significand bits, round half to even, ignoring exponent-range effects (the
values of simple.rs stay far from overflow and subnormals). -/
def dRound32 (x : Dyadic) : Dyadic :=
  let b := bitLen 300 x.n
  if b ≤ 24 then x
  else
    let d := b - 24
    let q := x.n / 2 ^ d
    let r := x.n % 2 ^ d
    let q' :=
      if r < 2 ^ (d - 1) then q
      else if 2 ^ (d - 1) < r then q + 1
      else if q % 2 = 0 then q else q + 1
    if d ≤ x.e then ⟨q', x.e - d⟩ else ⟨q' * 2 ^ (d - x.e), 0⟩

/-- Binary32 value of a nonnegative fraction num/den below 2 ^ 23: scale
the numerator by two until the quotient has 24 bits, then round half to
even (exact binary32 division by den; used for the source literal 0.9 and
for quality / 100.0). -/
def dOfFrac : Nat → Nat → Nat → Dyadic
  | 0, num, den => ⟨num / den.max 1, 0⟩
  | fuel + 1, num, den =>
    if 2 ^ 23 * den ≤ num then
      let q := num / den
      let r := num % den
      let q' :=
        if 2 * r < den then q
        else if den < 2 * r then q + 1
        else if q % 2 = 0 then q else q + 1
      ⟨q', 0⟩
    else
      let d := dOfFrac fuel (2 * num) den
      ⟨d.n, d.e + 1⟩

/-- Reported AVIF quality: the u8 round trip of compress_avif, which
computes quality as f32 / 100.0 and reports (quality * 100.0) as u8.  Both
f32 steps are rounded in binary32 and the cast truncates toward zero.
This round trip is not the identity on every u8 (53 maps to 52 and 59 to
58), though it is the identity at the default 80. -/
def avifReportedQuality (q : Nat) : Nat :=
  (dRound32 ((dOfFrac 300 q 100).mul ⟨100, 0⟩)).floor

/-- The external encode primitives the engine composes (image, mozjpeg,
oxipng, webp and ravif crates).  Each is an opaque total function from its
inputs to the produced byte buffer; the repository code never inspects the
bytes beyond their length. -/
structure Encoders where
  /-- JpegEncoder::new_with_quality followed by encode, on the RGB view. -/
  jpegEncode : Nat → Img → List Nat
  /-- The mozjpeg pipeline at a quality, with or without the progressive
  scan optimization that optimize_for_web enables, on the RGB view. -/
  mozjpegEncode : Nat → Bool → Img → List Nat
  /-- DynamicImage::write_to with ImageFormat::Png (default settings). -/
  pngWriteTo : Img → List Nat
  /-- PngEncoder::new_with_quality with CompressionType::Best and the given
  row filter. -/
  pngEncodeFiltered : PngFilter → Img → List Nat
  /-- oxipng::optimize_from_memory with preset 3, the five-filter set, and
  the given strip mode. -/
  oxipngOptimize : StripChunks → List Nat → List Nat
  /-- webp Encoder::from_rgba followed by encode at an f32 quality (every
  quality the engine passes is exactly representable, so Rat is exact). -/
  webpEncodeLossy : Rat → Img → List Nat
  /-- webp Encoder::from_rgba followed by encode_lossless. -/
  webpEncodeLossless : Img → List Nat
  /-- ravif Encoder::new followed by encode_rgba (the ravif encoder of this
  engine takes no quality parameter). -/
  avifEncode : Img → List Nat

/-- calculate_ratio: compressed length over the raw-size estimate.  f32
division in the source, exact Rat division here. -/
def estimate_raw_size (image : Img) : Nat :=
  let bytes_per_pixel :=
    match image.layout with
    | Layout.luma8 => 1
    | Layout.lumaA8 => 2
    | Layout.rgb8 => 3
    | Layout.rgba8 => 4
    | Layout.other => 4
  image.width * image.height * bytes_per_pixel % 2 ^ 32

/-- calculate_ratio of compression.rs. -/
def calculate_ratio (original : Img) (compressed : List Nat) : Rat :=
  (compressed.length : Rat) / (estimate_raw_size original : Rat)

/-- Integer square root by downward search from the first argument: the
largest k at most the first argument with k * k at most n.  Equals the
usual floor square root whenever the first argument is at least it; it is
written this way (structural recursion) so that the kernel can evaluate
it. -/
def isqrtFrom : Nat → Nat → Nat
  | 0, _ => 0
  | k + 1, n => if (k + 1) * (k + 1) ≤ n then k + 1 else isqrtFrom k n

/-- Floor integer square root, kernel-evaluable. -/
def isqrt (n : Nat) : Nat := isqrtFrom n n

/-- quantize_image of compression.rs: uniform posterization of the RGB
channels of the RGBA view, alpha untouched.  The source computes the factor
as (256.0 / (max_colors as f32).sqrt()) as u8; at the only call site
(max_colors = 256) this is exactly 16 = 256 / isqrt 256, which is the
integer form used here. -/
def quantize_image (image : Img) (max_colors : Nat) : Img :=
  let rgba := to_rgba8 image
  let factor := 256 / isqrt max_colors
  { rgba with
      layout := Layout.rgba8,
      pixels := rgba.pixels.map fun p =>
        { p with
            r := p.r / factor * factor,
            g := p.g / factor * factor,
            b := p.b / factor * factor } }

/-- Shared integer binary-search loop of jpeg_target_size and
mozjpeg_target_size: bounds start at (10, 95), the midpoint encode is kept
as the running best when it fits the budget (raising the lower bound),
otherwise the upper bound drops below the midpoint; the loop runs while
low <= high.  The u8 bounds are Nat here: the search-bounds theorem below
shows every intermediate value stays inside [9, 96], so no u8 wrap can
occur.  The structural fuel argument stands in for the while loop; the
termination theorem below shows any fuel from 86 on gives the same result
from the (10, 95) start. -/
def fitLoop (enc : Nat → List Nat) (target : Nat) :
    Nat → Nat → Nat → List Nat → List Nat
  | 0, _, _, best => best
  | fuel + 1, low, high, best =>
    if low ≤ high then
      let quality := (low + high) / 2
      let output := enc quality
      if output.length ≤ target then
        fitLoop enc target fuel (quality + 1) high output
      else
        fitLoop enc target fuel low (quality - 1) best
    else best

/-- Instrumented copy of fitLoop that also records the (low, high) bracket
of every executed iteration; its second component is fitLoop. -/
def fitLoopT (enc : Nat → List Nat) (target : Nat) :
    Nat → Nat → Nat → List Nat → List (Nat × Nat) × List Nat
  | 0, _, _, best => ([], best)
  | fuel + 1, low, high, best =>
    if low ≤ high then
      let quality := (low + high) / 2
      let output := enc quality
      if output.length ≤ target then
        let rest := fitLoopT enc target fuel (quality + 1) high output
        ((low, high) :: rest.1, rest.2)
      else
        let rest := fitLoopT enc target fuel low (quality - 1) best
        ((low, high) :: rest.1, rest.2)
    else ([], best)

/-- jpeg_target_size of compression.rs.  The source returns
Ok(best_result) unconditionally, with no emptiness check, so an
unreachable target yields a successful empty buffer. -/
def jpeg_target_size (E : Encoders) (image : Img) (target_bytes : Nat) :
    Except String (List Nat) :=
  Except.ok (fitLoop (fun q => E.jpegEncode q image) target_bytes 96 10 95 [])

/-- mozjpeg_target_size of compression.rs: same search, but an empty best
buffer is turned into an error. -/
def mozjpeg_target_size (E : Encoders) (image : Img) (target_bytes : Nat)
    (optimize_for_web : Bool) : Except String (List Nat) :=
  let best_result :=
    fitLoop (fun q => E.mozjpegEncode q optimize_for_web image)
      target_bytes 96 10 95 []
  if best_result.isEmpty then
    Except.error "Could not achieve target file size with MozJPEG"
  else Except.ok best_result

/-- Float bisection loop of webp_target_size (lossy case): bounds 10.0 and
95.0, loop while the bracket is wider than 1.0, the fitting midpoint
becomes the new lower bound and running best, otherwise the new upper
bound.  All midpoints are dyadic rationals exactly representable in f32,
so Rat arithmetic is exact.  Eight iterations close the bracket; fuel 64. -/
def webpLoop (E : Encoders) (image : Img) (target : Nat) :
    Nat → Rat → Rat → List Nat → List Nat
  | 0, _, _, best => best
  | fuel + 1, low, high, best =>
    if 1 < high - low then
      let quality := (low + high) / 2
      let data := E.webpEncodeLossy quality image
      if data.length ≤ target then
        webpLoop E image target fuel quality high data
      else
        webpLoop E image target fuel low quality best
    else best

/-- webp_target_size of compression.rs. -/
def webp_target_size (E : Encoders) (image : Img) (target_bytes : Nat)
    (lossy : Bool) : Except String (List Nat) :=
  if lossy then
    let best_result := webpLoop E image target_bytes 64 10 95 []
    if best_result.isEmpty then
      Except.error "Could not achieve target file size with WebP"
    else Except.ok best_result
  else
    Except.ok (E.webpEncodeLossless image)

/-- avif_target_size of compression.rs: single encode, rejected when it
exceeds the target.  No caller in the repository invokes it. -/
def avif_target_size (E : Encoders) (image : Img) (target_bytes : Nat) :
    Except String (List Nat) :=
  let encoded := E.avifEncode (to_rgba8 image)
  if encoded.length ≤ target_bytes then Except.ok encoded
  else Except.error "AVIF file exceeds target size"

/-- compress_standard_jpeg of compression.rs. -/
def compress_standard_jpeg (E : Encoders) (image : Img)
    (options : CompressionOptions) : Except String CompressionResult :=
  let rgb_image := to_rgb8 image
  let quality := options.quality.getD 85
  let encoded :=
    match options.target_size with
    | some target_size => jpeg_target_size E rgb_image target_size
    | none => Except.ok (E.jpegEncode quality rgb_image)
  match encoded with
  | Except.error e => Except.error e
  | Except.ok result_data =>
    Except.ok
      { data := result_data
        format := ImageFormat.jpeg
        algorithm_used := CompressionAlgorithm.standardJpeg
        final_quality := some quality
        compression_ratio := calculate_ratio image result_data }

/-- compress_mozjpeg of compression.rs: one unconditional encode at the
requested quality, replaced by the target-size search result when a target
is given. -/
def compress_mozjpeg (E : Encoders) (image : Img)
    (options : CompressionOptions) : Except String CompressionResult :=
  let rgb_image := to_rgb8 image
  let quality := options.quality.getD 85
  let output_data := E.mozjpegEncode quality options.optimize_for_web rgb_image
  let final :=
    match options.target_size with
    | some target_size =>
      mozjpeg_target_size E rgb_image target_size options.optimize_for_web
    | none => Except.ok output_data
  match final with
  | Except.error e => Except.error e
  | Except.ok final_data =>
    Except.ok
      { data := final_data
        format := ImageFormat.jpeg
        algorithm_used := CompressionAlgorithm.mozJpeg
        final_quality := some quality
        compression_ratio := calculate_ratio image final_data }

/-- compress_standard_png of compression.rs: one PNG encode with
CompressionType::Best and FilterType::Adaptive. -/
def compress_standard_png (E : Encoders) (image : Img)
    (_options : CompressionOptions) : Except String CompressionResult :=
  let result_data := E.pngEncodeFiltered PngFilter.adaptive image
  Except.ok
    { data := result_data
      format := ImageFormat.png
      algorithm_used := CompressionAlgorithm.standardPng
      final_quality := none
      compression_ratio := calculate_ratio image result_data }

/-- Filter search of compress_optipng: start from the plain PNG encode
and keep the strictly smaller buffer of each filtered re-encode, over the
six row filters in order. -/
def optipng_filter_search (E : Encoders) (image : Img) : List Nat :=
  let png_data := E.pngWriteTo image
  let filters := [PngFilter.noFilter, PngFilter.sub, PngFilter.up,
    PngFilter.avg, PngFilter.paeth, PngFilter.adaptive]
  filters.foldl
    (fun best filter =>
      let temp_data := E.pngEncodeFiltered filter image
      if temp_data.length < best.length then temp_data else best)
    png_data

/-- compress_optipng of compression.rs: plain PNG encode, then the
brute-force filter search keeping the smallest buffer. -/
def compress_optipng (E : Encoders) (image : Img)
    (_options : CompressionOptions) : Except String CompressionResult :=
  let best_result := optipng_filter_search E image
  Except.ok
    { data := best_result
      format := ImageFormat.png
      algorithm_used := CompressionAlgorithm.optiPng
      final_quality := none
      compression_ratio := calculate_ratio image best_result }

/-- compress_oxipng of compression.rs: plain PNG encode then
oxipng::optimize_from_memory, with the strip mode chosen from the
options. -/
def compress_oxipng (E : Encoders) (image : Img)
    (options : CompressionOptions) : Except String CompressionResult :=
  let png_data := E.pngWriteTo image
  let strip :=
    if options.optimize_for_web then StripChunks.safe
    else if options.preserve_metadata then StripChunks.none
    else StripChunks.all
  let optimized_data := E.oxipngOptimize strip png_data
  Except.ok
    { data := optimized_data
      format := ImageFormat.png
      algorithm_used := CompressionAlgorithm.oxiPng
      final_quality := none
      compression_ratio := calculate_ratio image optimized_data }

/-- compress_pngquant of compression.rs: quantize to 256 colors, reuse the
oxipng path, and relabel the result as PngQuant. -/
def compress_pngquant (E : Encoders) (image : Img)
    (options : CompressionOptions) : Except String CompressionResult :=
  let max_colors := 256
  let quantized := quantize_image image max_colors
  (compress_oxipng E quantized options).map fun result =>
    { result with algorithm_used := CompressionAlgorithm.pngQuant }

/-- compress_webp_lossy of compression.rs: one encode at the quality (u8
default 85, passed as f32), replaced by the lossy bisection search when a
target is given. -/
def compress_webp_lossy (E : Encoders) (image : Img)
    (options : CompressionOptions) : Except String CompressionResult :=
  let quality : Rat := (options.quality.getD 85 : Nat)
  let rgba_image := to_rgba8 image
  let data := E.webpEncodeLossy quality rgba_image
  let final :=
    match options.target_size with
    | some target_size => webp_target_size E rgba_image target_size true
    | none => Except.ok data
  match final with
  | Except.error e => Except.error e
  | Except.ok final_data =>
    Except.ok
      { data := final_data
        format := ImageFormat.webp
        algorithm_used := CompressionAlgorithm.webPLossy
        final_quality := some (options.quality.getD 85)
        compression_ratio := calculate_ratio image final_data }

/-- compress_webp_lossless of compression.rs: a single lossless encode.
The options (including any target_size) are never consulted. -/
def compress_webp_lossless (E : Encoders) (image : Img)
    (_options : CompressionOptions) : Except String CompressionResult :=
  let rgba_image := to_rgba8 image
  let data := E.webpEncodeLossless rgba_image
  Except.ok
    { data := data
      format := ImageFormat.webp
      algorithm_used := CompressionAlgorithm.webPLossless
      final_quality := none
      compression_ratio := calculate_ratio image data }

/-- compress_avif of compression.rs: a single ravif encode with no quality
parameter.  When a target size is present the source keeps the same data
(both branches of its conditional are the single encode).  final_quality
reports (quality * 100.0) as u8 where quality = u8-quality as f32 / 100.0,
modelled exactly in binary32 by avifReportedQuality. -/
def compress_avif (E : Encoders) (image : Img)
    (options : CompressionOptions) : Except String CompressionResult :=
  let quality := options.quality.getD 80
  let rgba_image := to_rgba8 image
  let data := E.avifEncode rgba_image
  let final_data :=
    match options.target_size with
    | some _ => data
    | none => data
  Except.ok
    { data := final_data
      format := ImageFormat.avif
      algorithm_used := CompressionAlgorithm.avif
      final_quality := some (avifReportedQuality quality)
      compression_ratio := calculate_ratio image final_data }

/-- Algorithm the compress orchestrator dispatches on: the caller choice,
with Auto resolved through analyze_image and select_best_algorithm. -/
def resolvedAlgorithm (image : Img) (options : CompressionOptions) :
    CompressionAlgorithm :=
  match options.algorithm with
  | CompressionAlgorithm.auto => select_best_algorithm (analyze_image image)
  | other => other

/-- SmartCompressor::compress of compression.rs.  The source marks the Auto
dispatch arm unreachable (a panic); modelled as an error value. -/
def compress (E : Encoders) (image : Img) (options : CompressionOptions) :
    Except String CompressionResult :=
  let algorithm := resolvedAlgorithm image options
  match algorithm with
  | CompressionAlgorithm.auto => Except.error "unreachable"
  | CompressionAlgorithm.simple => compress_standard_jpeg E image options
  | CompressionAlgorithm.standardJpeg => compress_standard_jpeg E image options
  | CompressionAlgorithm.mozJpeg => compress_mozjpeg E image options
  | CompressionAlgorithm.standardPng => compress_standard_png E image options
  | CompressionAlgorithm.optiPng => compress_optipng E image options
  | CompressionAlgorithm.oxiPng => compress_oxipng E image options
  | CompressionAlgorithm.pngQuant => compress_pngquant E image options
  | CompressionAlgorithm.webPLossy => compress_webp_lossy E image options
  | CompressionAlgorithm.webPLossless => compress_webp_lossless E image options
  | CompressionAlgorithm.avif => compress_avif E image options

/-
Legacy/simple path: compress_to_size of simple.rs.

The scale variable of its downscale fallback lives in f32, and binary32
rounding changes the truncated pixel dimensions, so that arithmetic is
modelled exactly.  Every f32 value the loop manipulates is a nonnegative
dyadic rational far from overflow and subnormals, so binary32 numbers are
represented as pairs n / 2 ^ e of naturals and binary32 rounding is
round-half-even at 24 significand bits — all kernel-computable natural
arithmetic.
-/

/-- The binary32 value of the literal 0.9 appearing in simple.rs. -/
def c09 : Dyadic := dOfFrac 300 9 10

/-- Requested dimension of one downscale step: the current dimension as
f32, times the current scale in f32, truncated to u32. -/
def reqDim (w : Nat) (scale : Dyadic) : Nat :=
  (dRound32 (Dyadic.mul (dRound32 ⟨w, 0⟩) scale)).floor

/-- Successive values of the scale variable of the fallback while loop:
starting value s, then repeatedly times 0.9f32 (rounded), while the value
stays above 0.5.  The scale evolves independently of the image, so the
while loop is driven by this list. -/
def scaleSeq : Nat → Dyadic → List Dyadic
  | 0, _ => []
  | fuel + 1, s =>
    if 2 ^ s.e < 2 * s.n then s :: scaleSeq fuel (dRound32 (s.mul c09))
    else []

/-- One recorded attempt of the downscale fallback: dimensions of the image
entering the step, requested dimensions, and the encode quality. -/
structure FallbackAttempt where
  wIn : Nat
  hIn : Nat
  wReq : Nat
  hReq : Nat
  quality : Nat
deriving DecidableEq, Repr

/-- Downscale fallback of compress_to_size, driven by the list of scale
values: each step computes requested dimensions from the current (already
resized) image, resizes, re-encodes at fixed quality 75, and stops at the
first buffer meeting the budget.  Also records every attempt. -/
def fallbackSteps (resize : Img → Nat → Nat → Img)
    (encJpeg : Img → Nat → List Nat) (target_bytes : Nat) :
    List Dyadic → Img → List FallbackAttempt × Option (List Nat)
  | [], _ => ([], none)
  | s :: ss, img =>
    let new_width := reqDim img.width s
    let new_height := reqDim img.height s
    let resized := resize img new_width new_height
    let buffer := encJpeg resized 75
    let att : FallbackAttempt :=
      ⟨img.width, img.height, new_width, new_height, 75⟩
    if buffer.length ≤ target_bytes then ([att], some buffer)
    else
      let rest := fallbackSteps resize encJpeg target_bytes ss resized
      (att :: rest.1, rest.2)

/-- Qualities tried by the first loop of compress_to_size:
(20..=95).rev().step_by(5), that is 95, 90, ..., 20. -/
def qualityList : List Nat := (List.range 16).map fun k => 95 - 5 * k

/-- First loop of compress_to_size: descending qualities, first buffer
meeting the budget wins. -/
def qualityLoop (encJpeg : Img → Nat → List Nat) (img : Img)
    (target_bytes : Nat) : List Nat → Option (List Nat)
  | [] => none
  | q :: qs =>
    let buffer := encJpeg img q
    if buffer.length ≤ target_bytes then some buffer
    else qualityLoop encJpeg img target_bytes qs

/-- compress_to_size of simple.rs, parametric in the external Lanczos3
resize and JPEG encode (save_to_buffer with ImageFormat::Jpeg).  Returns
the buffer that would be written.  The while loop over the f32 scale
variable is driven by scaleSeq, the list of values that variable takes. -/
def compress_to_size (resize : Img → Nat → Nat → Img)
    (encJpeg : Img → Nat → List Nat) (img : Img) (target_kb : Nat)
    (auto_scale : Bool) : Except String (List Nat) :=
  let target_bytes := target_kb * 1024
  match qualityLoop encJpeg img target_bytes qualityList with
  | some buffer => Except.ok buffer
  | none =>
    if auto_scale then
      match (fallbackSteps resize encJpeg target_bytes
          (scaleSeq 100 c09) img).2 with
      | some buffer => Except.ok buffer
      | none => Except.error "Could not achieve target file size"
    else Except.error "Could not achieve target file size"

/-
Concrete fixtures used by counterexamples and witnesses.
-/

/-- A fixed 2 x 2 opaque RGBA image. -/
def cexImg : Img :=
  ⟨2, 2, Layout.rgba8,
    [⟨0, 0, 0, 255⟩, ⟨10, 10, 10, 255⟩, ⟨20, 20, 20, 255⟩, ⟨30, 30, 30, 255⟩]⟩

/-- A fixed 2 x 2 opaque image whose original buffer is 8-bit grayscale. -/
def cexImgLuma : Img :=
  ⟨2, 2, Layout.luma8,
    [⟨0, 0, 0, 255⟩, ⟨10, 10, 10, 255⟩, ⟨20, 20, 20, 255⟩, ⟨30, 30, 30, 255⟩]⟩

/-- A fixed set of external encoders with small deterministic outputs.  The
JPEG encoders always produce 3 bytes (so a target below 3 is unreachable);
the lossy WebP encoder produces 1 byte at quality exactly 85 and 2 bytes
at every other quality. -/
def cexEncoders : Encoders :=
  { jpegEncode := fun _ _ => [7, 7, 7]
    mozjpegEncode := fun _ _ _ => [7, 7, 7]
    pngWriteTo := fun _ => [1, 2]
    pngEncodeFiltered := fun _ _ => [1, 2]
    oxipngOptimize := fun _ d => d
    webpEncodeLossy := fun q _ => if q = 85 then [5] else [5, 5]
    webpEncodeLossless := fun _ => [9, 9, 9, 9, 9]
    avifEncode := fun _ => [8, 8, 8] }

/-- Resize collaborator that produces exactly the requested dimensions. -/
def cexResize : Img → Nat → Nat → Img :=
  fun img nw nh => { img with width := nw, height := nh }

/-- JPEG encode collaborator that always produces one byte. -/
def cexEncJpeg : Img → Nat → List Nat := fun _ _ => [0]

/-
C1: the algorithm selector evaluates its rules in order, first match wins.
-/

/-- C1: the selector realizes the five ordered rules with first match
winning: (1) opaque photograph yields MozJpeg; (2) transparency with more
than 256 colors yields lossy WebP; (3) non-photograph with at most 256
colors yields OxiPng; (4) the remaining transparent case (photograph with
at most 256 colors) yields lossy WebP; (5) the remaining opaque case
(non-photograph with more than 256 colors) yields lossy WebP.  A
transparent non-photograph analysis with 300 colors resolves to lossy
WebP by rule 2. -/
theorem selector_rules_ordered_first_match :
    (∀ a : ImageAnalysis, a.has_transparency = false → a.is_photograph = true →
      select_best_algorithm a = CompressionAlgorithm.mozJpeg) ∧
    (∀ a : ImageAnalysis, a.has_transparency = true → 256 < a.color_count →
      select_best_algorithm a = CompressionAlgorithm.webPLossy) ∧
    (∀ a : ImageAnalysis, a.is_photograph = false → a.color_count ≤ 256 →
      select_best_algorithm a = CompressionAlgorithm.oxiPng) ∧
    (∀ a : ImageAnalysis, a.has_transparency = true → a.is_photograph = true →
      a.color_count ≤ 256 →
      select_best_algorithm a = CompressionAlgorithm.webPLossy) ∧
    (∀ a : ImageAnalysis, a.has_transparency = false → a.is_photograph = false →
      256 < a.color_count →
      select_best_algorithm a = CompressionAlgorithm.webPLossy) ∧
    select_best_algorithm ⟨true, 300, false, false⟩ =
      CompressionAlgorithm.webPLossy := by
  refine ⟨?_, ?_, ?_, ?_, ?_, by decide⟩ <;>
    intro a h1 h2 <;>
    first
    | (intro h3; simp [select_best_algorithm, h1, h2, h3])
    | simp [select_best_algorithm, h1, h2]

/-- Witness for C1: the rules applied at concrete analysis records. -/
theorem selector_rules_ordered_first_match_witness :
    select_best_algorithm ⟨true, 300, false, false⟩ =
      CompressionAlgorithm.webPLossy ∧
    select_best_algorithm ⟨false, 2000, true, true⟩ =
      CompressionAlgorithm.mozJpeg ∧
    select_best_algorithm ⟨false, 10, false, false⟩ =
      CompressionAlgorithm.oxiPng :=
  ⟨selector_rules_ordered_first_match.2.1 ⟨true, 300, false, false⟩ rfl
      (by norm_num),
    selector_rules_ordered_first_match.1 ⟨false, 2000, true, true⟩ rfl rfl,
    selector_rules_ordered_first_match.2.2.1 ⟨false, 10, false, false⟩ rfl
      (by norm_num)⟩

/-
C8: color_count never exceeds the 10000 sample budget.
-/

/-- The color-collection loop never grows the set past the budget when it
starts below it. -/
theorem countColorsLoop_le_max (step max_sample : Nat) :
    ∀ (ps : List Pix) (i : Nat) (colors : List (Nat × Nat × Nat)),
      colors.length < max_sample →
      countColorsLoop step max_sample ps i colors ≤ max_sample := by
  intro ps
  induction ps with
  | nil =>
    intro i colors h
    simpa [countColorsLoop] using h.le
  | cons p rest ih =>
    intro i colors h
    simp only [countColorsLoop]
    by_cases hstep : i % step = 0
    · simp only [if_pos hstep]
      by_cases hmem : (p.r, p.g, p.b) ∈ colors
      · simp only [if_pos hmem]
        by_cases hfull : max_sample ≤ colors.length
        · omega
        · simp only [if_neg hfull]
          exact ih (i + 1) colors h
      · simp only [if_neg hmem, List.length_cons]
        by_cases hfull : max_sample ≤ colors.length + 1
        · simp only [if_pos hfull]
          omega
        · simp only [if_neg hfull]
          exact ih (i + 1) _ (by simpa using Nat.lt_of_not_le hfull)
    · simp only [if_neg hstep]
      exact ih (i + 1) colors h

/-- C8: for every image the analysis color count is at most the 10000
sample budget: the collection loop stops as soon as the set reaches the
budget. -/
theorem analysis_color_count_le_budget (image : Img) :
    (analyze_image image).color_count ≤ 10000 :=
  countColorsLoop_le_max _ 10000 (to_rgba8 image).pixels 0 [] (by norm_num)

/-
C10: quantize_image at 256 colors is idempotent, preserves dimensions and
alpha, and maps each RGB channel to (c / 16) * 16.
-/

/-- C10: quantization at max_colors 256 uses the per-channel factor 16,
mapping every RGB channel to (c / 16) * 16 and leaving alpha untouched;
applying it twice is the same as applying it once, and the dimensions are
preserved. -/
theorem quantize_image_256_idempotent (image : Img) :
    quantize_image (quantize_image image 256) 256 = quantize_image image 256 ∧
    (quantize_image image 256).width = image.width ∧
    (quantize_image image 256).height = image.height ∧
    (quantize_image image 256).pixels = image.pixels.map
      (fun p => ⟨p.r / 16 * 16, p.g / 16 * 16, p.b / 16 * 16, p.a⟩) ∧
    (quantize_image image 256).pixels.map Pix.a = image.pixels.map Pix.a := by
  have hfac : 256 / isqrt 256 = 16 := by decide
  have hq : ∀ img : Img, quantize_image img 256 =
      { img with
          layout := Layout.rgba8,
          pixels := img.pixels.map
            (fun p => ⟨p.r / 16 * 16, p.g / 16 * 16, p.b / 16 * 16, p.a⟩) } := by
    intro img
    simp only [quantize_image, to_rgba8, hfac]
  have hpix : ∀ ps : List Pix,
      (ps.map (fun p : Pix =>
          (⟨p.r / 16 * 16, p.g / 16 * 16, p.b / 16 * 16, p.a⟩ : Pix))).map
        (fun p : Pix =>
          (⟨p.r / 16 * 16, p.g / 16 * 16, p.b / 16 * 16, p.a⟩ : Pix)) =
      ps.map (fun p : Pix =>
        (⟨p.r / 16 * 16, p.g / 16 * 16, p.b / 16 * 16, p.a⟩ : Pix)) := by
    intro ps
    rw [List.map_map]
    refine List.map_congr_left fun p _ => ?_
    have h16 : ∀ n : Nat, n / 16 * 16 / 16 * 16 = n / 16 * 16 := fun n => by
      rw [Nat.mul_div_cancel _ (by norm_num : (0 : Nat) < 16)]
    simp [Function.comp, h16]
  refine ⟨?_, by rw [hq], by rw [hq], by rw [hq], ?_⟩
  · rw [hq, hq]
    exact congrArg (fun ps => Img.mk image.width image.height Layout.rgba8 ps)
      (hpix image.pixels)
  · rw [hq]
    simp [List.map_map, Function.comp]

/-
C2: behavior of the JPEG-family paths when no quality in [10, 95] meets
the target.
-/

/-- C2 (code-bug evidence): with encoders whose every quality yields 3
bytes and a 2-byte target, the StandardJpeg path returns a successful
result with empty data, because jpeg_target_size returns its running best
buffer without the emptiness check its MozJpeg sibling performs; the
MozJpeg path returns the size-unreachable error the claim describes. -/
theorem jpeg_family_unreachable_target_behavior :
    compress cexEncoders cexImg
      { algorithm := CompressionAlgorithm.standardJpeg, quality := none,
        target_size := some 2, preserve_metadata := false,
        optimize_for_web := true } =
      Except.ok
        { data := [], format := ImageFormat.jpeg,
          algorithm_used := CompressionAlgorithm.standardJpeg,
          final_quality := some 85,
          compression_ratio := calculate_ratio cexImg [] } ∧
    calculate_ratio cexImg [] = 0 ∧
    compress cexEncoders cexImg
      { algorithm := CompressionAlgorithm.mozJpeg, quality := none,
        target_size := some 2, preserve_metadata := false,
        optimize_for_web := true } =
      Except.error "Could not achieve target file size with MozJPEG" :=
  ⟨rfl, by simp [calculate_ratio], rfl⟩

/-
C3: the non-quality-adjustable adapters with a target size.
-/

/-- Sample values of the binary32 quality round trip of compress_avif:
the identity at the default 80 (and at 85, 90, 100), but one below at 53
and 59 — so the report is modelled by avifReportedQuality, not by the
identity. -/
theorem avifReportedQuality_values :
    avifReportedQuality 80 = 80 ∧ avifReportedQuality 85 = 85 ∧
    avifReportedQuality 90 = 90 ∧ avifReportedQuality 100 = 100 ∧
    avifReportedQuality 53 = 52 ∧ avifReportedQuality 59 = 58 := by
  refine ⟨by decide, by decide, by decide, by decide, by decide, by decide⟩

/-- C3 counterexample: lossless WebP with a 2-byte target returns a
successful 5-byte result, and AVIF a successful 3-byte result, instead of
the size-unreachable error the claim requires. -/
theorem lossless_target_ignored_cex :
    compress cexEncoders cexImg
      ⟨CompressionAlgorithm.webPLossless, none, some 2, false, true⟩ =
      Except.ok
        { data := [9, 9, 9, 9, 9], format := ImageFormat.webp,
          algorithm_used := CompressionAlgorithm.webPLossless,
          final_quality := none,
          compression_ratio := calculate_ratio cexImg [9, 9, 9, 9, 9] } ∧
    ¬ ([9, 9, 9, 9, 9] : List Nat).length ≤ 2 ∧
    compress cexEncoders cexImg
      ⟨CompressionAlgorithm.avif, none, some 2, false, true⟩ =
      Except.ok
        { data := [8, 8, 8], format := ImageFormat.avif,
          algorithm_used := CompressionAlgorithm.avif,
          final_quality := some 80,
          compression_ratio := calculate_ratio cexImg [8, 8, 8] } ∧
    ¬ ([8, 8, 8] : List Nat).length ≤ 2 := by
  refine ⟨rfl, by decide, ?_, by decide⟩
  have hq : (80 : Nat) = avifReportedQuality 80 := by decide
  rw [hq]
  rfl

/-- C3 amended: the lossless WebP and AVIF adapters perform a single
encode with no search or retry, but the target size is ignored: the encode
is returned successfully even when it exceeds the target.  Only the
uncalled avif_target_size helper rejects an oversized encode with an
error. -/
theorem lossless_webp_avif_single_encode_target_ignored (E : Encoders)
    (image : Img) (options : CompressionOptions) :
    compress_webp_lossless E image options =
      Except.ok
        { data := E.webpEncodeLossless (to_rgba8 image),
          format := ImageFormat.webp,
          algorithm_used := CompressionAlgorithm.webPLossless,
          final_quality := none,
          compression_ratio :=
            calculate_ratio image (E.webpEncodeLossless (to_rgba8 image)) } ∧
    compress_avif E image options =
      Except.ok
        { data := E.avifEncode (to_rgba8 image), format := ImageFormat.avif,
          algorithm_used := CompressionAlgorithm.avif,
          final_quality :=
            some (avifReportedQuality (options.quality.getD 80)),
          compression_ratio :=
            calculate_ratio image (E.avifEncode (to_rgba8 image)) } ∧
    (∀ target_bytes : Nat,
      target_bytes < (E.avifEncode (to_rgba8 image)).length →
      avif_target_size E image target_bytes =
        Except.error "AVIF file exceeds target size") := by
  refine ⟨rfl, ?_, ?_⟩
  · cases h : options.target_size <;> simp [compress_avif, h]
  · intro t ht
    unfold avif_target_size
    rw [if_neg (by omega)]

/-- Witness for C3: the helper rejects the oversized concrete AVIF
encode. -/
theorem lossless_webp_avif_single_encode_target_ignored_witness :
    avif_target_size cexEncoders cexImg 2 =
      Except.error "AVIF file exceeds target size" :=
  (lossless_webp_avif_single_encode_target_ignored cexEncoders cexImg
    ⟨CompressionAlgorithm.avif, none, some 2, false, true⟩).2.2 2 (by decide)

/-
C4: default quality of the quality-bearing algorithms.
-/

/-- C4 counterexample: with no quality and no target, lossy WebP encodes
at quality 85, producing different bytes than an encode at its
recommended_quality value 90 would produce. -/
theorem webp_default_not_recommended_cex :
    compress cexEncoders cexImg
      ⟨CompressionAlgorithm.webPLossy, none, none, false, true⟩ =
      Except.ok
        { data := [5], format := ImageFormat.webp,
          algorithm_used := CompressionAlgorithm.webPLossy,
          final_quality := some 85,
          compression_ratio := calculate_ratio cexImg [5] } ∧
    cexEncoders.webpEncodeLossy
      ((recommended_quality CompressionAlgorithm.webPLossy : Nat) : Rat)
      (to_rgba8 cexImg) = [5, 5] ∧
    recommended_quality CompressionAlgorithm.webPLossy = 90 ∧
    ([5] : List Nat) ≠ [5, 5] := by
  refine ⟨rfl, ?_, rfl, by decide⟩
  · show (if ((90 : Nat) : Rat) = 85 then [5] else [5, 5]) = [5, 5]
    rw [if_neg (by norm_num)]

/-- C4 amended: with quality None and no target size, StandardJpeg and
MozJpeg encode at 85 (their recommended default), lossy WebP encodes at 85
although its recommended_quality is 90, and AVIF performs its single fixed
encode with no quality parameter while reporting final_quality 80 (its
recommended default). -/
theorem default_quality_when_unspecified (E : Encoders) (image : Img)
    (meta web : Bool) :
    (compress E image
        ⟨CompressionAlgorithm.standardJpeg, none, none, meta, web⟩ =
      Except.ok
        { data := E.jpegEncode 85 (to_rgb8 image), format := ImageFormat.jpeg,
          algorithm_used := CompressionAlgorithm.standardJpeg,
          final_quality := some 85,
          compression_ratio :=
            calculate_ratio image (E.jpegEncode 85 (to_rgb8 image)) } ∧
      recommended_quality CompressionAlgorithm.standardJpeg = 85) ∧
    (compress E image ⟨CompressionAlgorithm.mozJpeg, none, none, meta, web⟩ =
      Except.ok
        { data := E.mozjpegEncode 85 web (to_rgb8 image),
          format := ImageFormat.jpeg,
          algorithm_used := CompressionAlgorithm.mozJpeg,
          final_quality := some 85,
          compression_ratio :=
            calculate_ratio image (E.mozjpegEncode 85 web (to_rgb8 image)) } ∧
      recommended_quality CompressionAlgorithm.mozJpeg = 85) ∧
    (compress E image
        ⟨CompressionAlgorithm.webPLossy, none, none, meta, web⟩ =
      Except.ok
        { data := E.webpEncodeLossy ((85 : Nat) : Rat) (to_rgba8 image),
          format := ImageFormat.webp,
          algorithm_used := CompressionAlgorithm.webPLossy,
          final_quality := some 85,
          compression_ratio :=
            calculate_ratio image
              (E.webpEncodeLossy ((85 : Nat) : Rat) (to_rgba8 image)) } ∧
      recommended_quality CompressionAlgorithm.webPLossy = 90) ∧
    (compress E image ⟨CompressionAlgorithm.avif, none, none, meta, web⟩ =
      Except.ok
        { data := E.avifEncode (to_rgba8 image), format := ImageFormat.avif,
          algorithm_used := CompressionAlgorithm.avif,
          final_quality := some 80,
          compression_ratio :=
            calculate_ratio image (E.avifEncode (to_rgba8 image)) } ∧
      recommended_quality CompressionAlgorithm.avif = 80) :=
  by
  refine ⟨⟨rfl, rfl⟩, ⟨rfl, rfl⟩, ⟨rfl, rfl⟩, ⟨?_, rfl⟩⟩
  have hq : (80 : Nat) = avifReportedQuality 80 := by decide
  rw [hq]
  rfl

/-
Inversion lemmas: a successful result of each adapter carries that
adapter's algorithm tag and a ratio computed from the bytes of the result,
against the image the adapter passed to calculate_ratio.
-/

/-- Successful StandardJpeg results: tag and ratio. -/
theorem compress_standard_jpeg_ok (E : Encoders) (image : Img)
    (options : CompressionOptions) (r : CompressionResult)
    (h : compress_standard_jpeg E image options = Except.ok r) :
    r.algorithm_used = CompressionAlgorithm.standardJpeg ∧
    r.compression_ratio = calculate_ratio image r.data := by
  cases ht : options.target_size with
  | none =>
    simp only [compress_standard_jpeg, ht, Except.ok.injEq] at h
    subst h
    exact ⟨rfl, rfl⟩
  | some t =>
    simp only [compress_standard_jpeg, ht, jpeg_target_size,
      Except.ok.injEq] at h
    subst h
    exact ⟨rfl, rfl⟩

/-- Successful MozJpeg results: tag and ratio. -/
theorem compress_mozjpeg_ok (E : Encoders) (image : Img)
    (options : CompressionOptions) (r : CompressionResult)
    (h : compress_mozjpeg E image options = Except.ok r) :
    r.algorithm_used = CompressionAlgorithm.mozJpeg ∧
    r.compression_ratio = calculate_ratio image r.data := by
  cases ht : options.target_size with
  | none =>
    simp only [compress_mozjpeg, ht, Except.ok.injEq] at h
    subst h
    exact ⟨rfl, rfl⟩
  | some t =>
    simp only [compress_mozjpeg, ht, mozjpeg_target_size] at h
    split at h
    · simp at h
    · simp only [Except.ok.injEq] at h
      subst h
      exact ⟨rfl, rfl⟩

/-- Successful StandardPng results: tag and ratio. -/
theorem compress_standard_png_ok (E : Encoders) (image : Img)
    (options : CompressionOptions) (r : CompressionResult)
    (h : compress_standard_png E image options = Except.ok r) :
    r.algorithm_used = CompressionAlgorithm.standardPng ∧
    r.compression_ratio = calculate_ratio image r.data := by
  simp only [compress_standard_png, Except.ok.injEq] at h
  subst h
  exact ⟨rfl, rfl⟩

/-- Successful OptiPng results: tag and ratio. -/
theorem compress_optipng_ok (E : Encoders) (image : Img)
    (options : CompressionOptions) (r : CompressionResult)
    (h : compress_optipng E image options = Except.ok r) :
    r.algorithm_used = CompressionAlgorithm.optiPng ∧
    r.compression_ratio = calculate_ratio image r.data := by
  simp only [compress_optipng, Except.ok.injEq] at h
  subst h
  exact ⟨rfl, by simp⟩

/-- Successful OxiPng results: tag and ratio. -/
theorem compress_oxipng_ok (E : Encoders) (image : Img)
    (options : CompressionOptions) (r : CompressionResult)
    (h : compress_oxipng E image options = Except.ok r) :
    r.algorithm_used = CompressionAlgorithm.oxiPng ∧
    r.compression_ratio = calculate_ratio image r.data := by
  simp only [compress_oxipng, Except.ok.injEq] at h
  subst h
  exact ⟨rfl, rfl⟩

/-- Successful PngQuant results: tag and ratio; the ratio is computed
against the quantized copy, not the original image. -/
theorem compress_pngquant_ok (E : Encoders) (image : Img)
    (options : CompressionOptions) (r : CompressionResult)
    (h : compress_pngquant E image options = Except.ok r) :
    r.algorithm_used = CompressionAlgorithm.pngQuant ∧
    r.compression_ratio =
      calculate_ratio (quantize_image image 256) r.data := by
  simp only [compress_pngquant, compress_oxipng, Except.map,
    Except.ok.injEq] at h
  subst h
  exact ⟨rfl, rfl⟩

/-- Successful lossy WebP results: tag and ratio. -/
theorem compress_webp_lossy_ok (E : Encoders) (image : Img)
    (options : CompressionOptions) (r : CompressionResult)
    (h : compress_webp_lossy E image options = Except.ok r) :
    r.algorithm_used = CompressionAlgorithm.webPLossy ∧
    r.compression_ratio = calculate_ratio image r.data := by
  cases ht : options.target_size with
  | none =>
    simp only [compress_webp_lossy, ht, Except.ok.injEq] at h
    subst h
    exact ⟨rfl, rfl⟩
  | some t =>
    simp only [compress_webp_lossy, ht, webp_target_size, if_true] at h
    split at h
    · simp at h
    · simp only [Except.ok.injEq] at h
      subst h
      exact ⟨rfl, rfl⟩

/-- Successful lossless WebP results: tag and ratio. -/
theorem compress_webp_lossless_ok (E : Encoders) (image : Img)
    (options : CompressionOptions) (r : CompressionResult)
    (h : compress_webp_lossless E image options = Except.ok r) :
    r.algorithm_used = CompressionAlgorithm.webPLossless ∧
    r.compression_ratio = calculate_ratio image r.data := by
  simp only [compress_webp_lossless, Except.ok.injEq] at h
  subst h
  exact ⟨rfl, rfl⟩

/-- Successful AVIF results: tag and ratio. -/
theorem compress_avif_ok (E : Encoders) (image : Img)
    (options : CompressionOptions) (r : CompressionResult)
    (h : compress_avif E image options = Except.ok r) :
    r.algorithm_used = CompressionAlgorithm.avif ∧
    r.compression_ratio = calculate_ratio image r.data := by
  cases ht : options.target_size with
  | none =>
    simp only [compress_avif, ht, Except.ok.injEq] at h
    subst h
    exact ⟨rfl, rfl⟩
  | some t =>
    simp only [compress_avif, ht, Except.ok.injEq] at h
    subst h
    exact ⟨rfl, rfl⟩

/-
C5: algorithm_used equals the requested algorithm.
-/

/-- C5 counterexample: requesting the concrete non-Auto algorithm Simple
yields a successful result whose algorithm_used is StandardJpeg, not the
requested Simple. -/
theorem simple_reports_standard_jpeg_cex :
    compress cexEncoders cexImg
      ⟨CompressionAlgorithm.simple, none, none, false, true⟩ =
      Except.ok
        { data := [7, 7, 7], format := ImageFormat.jpeg,
          algorithm_used := CompressionAlgorithm.standardJpeg,
          final_quality := some 85,
          compression_ratio := calculate_ratio cexImg [7, 7, 7] } ∧
    CompressionAlgorithm.standardJpeg ≠ CompressionAlgorithm.simple :=
  ⟨rfl, by decide⟩

/-- C5 amended: for every request with a concrete algorithm other than
Auto and Simple, a successful result reports exactly the requested
algorithm in algorithm_used (Simple is dispatched to the StandardJpeg
adapter and reported as StandardJpeg). -/
theorem algorithm_used_matches_request (E : Encoders) (image : Img)
    (options : CompressionOptions) (r : CompressionResult)
    (hauto : options.algorithm ≠ CompressionAlgorithm.auto)
    (hsimple : options.algorithm ≠ CompressionAlgorithm.simple)
    (h : compress E image options = Except.ok r) :
    r.algorithm_used = options.algorithm := by
  cases halg : options.algorithm with
  | auto => exact absurd halg hauto
  | simple => exact absurd halg hsimple
  | standardJpeg =>
    simp only [compress, resolvedAlgorithm, halg] at h
    exact (compress_standard_jpeg_ok E image options r h).1
  | mozJpeg =>
    simp only [compress, resolvedAlgorithm, halg] at h
    exact (compress_mozjpeg_ok E image options r h).1
  | standardPng =>
    simp only [compress, resolvedAlgorithm, halg] at h
    exact (compress_standard_png_ok E image options r h).1
  | optiPng =>
    simp only [compress, resolvedAlgorithm, halg] at h
    exact (compress_optipng_ok E image options r h).1
  | oxiPng =>
    simp only [compress, resolvedAlgorithm, halg] at h
    exact (compress_oxipng_ok E image options r h).1
  | pngQuant =>
    simp only [compress, resolvedAlgorithm, halg] at h
    exact (compress_pngquant_ok E image options r h).1
  | webPLossy =>
    simp only [compress, resolvedAlgorithm, halg] at h
    exact (compress_webp_lossy_ok E image options r h).1
  | webPLossless =>
    simp only [compress, resolvedAlgorithm, halg] at h
    exact (compress_webp_lossless_ok E image options r h).1
  | avif =>
    simp only [compress, resolvedAlgorithm, halg] at h
    exact (compress_avif_ok E image options r h).1

/-- Witness for C5: the amended theorem applied to a concrete PngQuant
request. -/
theorem algorithm_used_matches_request_witness :
    ({ data := [1, 2], format := ImageFormat.png,
       algorithm_used := CompressionAlgorithm.pngQuant, final_quality := none,
       compression_ratio :=
         calculate_ratio (quantize_image cexImg 256) [1, 2] } :
      CompressionResult).algorithm_used = CompressionAlgorithm.pngQuant :=
  algorithm_used_matches_request cexEncoders cexImg
    ⟨CompressionAlgorithm.pngQuant, none, none, false, true⟩
    { data := [1, 2], format := ImageFormat.png,
      algorithm_used := CompressionAlgorithm.pngQuant, final_quality := none,
      compression_ratio :=
        calculate_ratio (quantize_image cexImg 256) [1, 2] }
    (by decide) (by decide) rfl

/-
C7: the compression ratio and the raw-size estimate.
-/

/-- C7 counterexample: a PngQuant request on a grayscale (Luma8) input
computes the ratio against the quantized RGBA copy, with 4 bytes per pixel
instead of the 1 byte of the input layout, so the ratio is 2/16 = 1/8 and
not 2/4 = 1/2 as the claim computes; and the raw-size product is computed
in 32-bit arithmetic, so a 65536 x 65536 RGBA image has estimate 0, not
2 ^ 34. -/
theorem ratio_raw_size_estimate_cex :
    compress cexEncoders cexImgLuma
      ⟨CompressionAlgorithm.pngQuant, none, none, false, true⟩ =
      Except.ok
        { data := [1, 2], format := ImageFormat.png,
          algorithm_used := CompressionAlgorithm.pngQuant,
          final_quality := none,
          compression_ratio :=
            calculate_ratio (quantize_image cexImgLuma 256) [1, 2] } ∧
    calculate_ratio (quantize_image cexImgLuma 256) [1, 2] = 1 / 8 ∧
    (([1, 2] : List Nat).length : Rat) /
      ((cexImgLuma.width * cexImgLuma.height * 1 : Nat) : Rat) = 1 / 2 ∧
    (1 / 8 : Rat) ≠ 1 / 2 ∧
    estimate_raw_size ⟨65536, 65536, Layout.rgba8, []⟩ = 0 ∧
    (65536 * 65536 * 4 : Nat) ≠ 0 := by
  refine ⟨rfl, ?_, ?_, by norm_num, by decide, by decide⟩
  · norm_num [calculate_ratio, estimate_raw_size, quantize_image, to_rgba8,
      cexImgLuma]
  · norm_num [cexImgLuma]

/-- C7 amended: every successful result has compression_ratio equal to the
byte count of its actual data divided by the raw-size estimate of the
image the adapter measures: the original input for every path except
PngQuant, which measures the quantized RGBA copy (same dimensions, 4 bytes
per pixel regardless of the input layout); the estimate is width times
height times bytes-per-pixel (1 gray, 2 gray-alpha, 3 RGB, 4 RGBA and
anything else), computed in 32-bit arithmetic (mod 2 ^ 32). -/
theorem compression_ratio_from_actual_bytes (E : Encoders) (image : Img)
    (options : CompressionOptions) (r : CompressionResult)
    (h : compress E image options = Except.ok r) :
    r.compression_ratio = (r.data.length : Rat) /
      ((estimate_raw_size
        (if resolvedAlgorithm image options = CompressionAlgorithm.pngQuant
          then quantize_image image 256 else image) : Nat) : Rat) ∧
    (∀ img : Img, estimate_raw_size img =
      img.width * img.height *
        (match img.layout with
          | Layout.luma8 => 1
          | Layout.lumaA8 => 2
          | Layout.rgb8 => 3
          | Layout.rgba8 => 4
          | Layout.other => 4) % 2 ^ 32) := by
  refine ⟨?_, fun img => rfl⟩
  cases halg : resolvedAlgorithm image options with
  | auto =>
    simp only [compress, halg] at h
    exact absurd h (by simp)
  | simple =>
    simp only [compress, halg] at h
    rw [if_neg (by decide)]
    exact (compress_standard_jpeg_ok E image options r h).2
  | standardJpeg =>
    simp only [compress, halg] at h
    rw [if_neg (by decide)]
    exact (compress_standard_jpeg_ok E image options r h).2
  | mozJpeg =>
    simp only [compress, halg] at h
    rw [if_neg (by decide)]
    exact (compress_mozjpeg_ok E image options r h).2
  | standardPng =>
    simp only [compress, halg] at h
    rw [if_neg (by decide)]
    exact (compress_standard_png_ok E image options r h).2
  | optiPng =>
    simp only [compress, halg] at h
    rw [if_neg (by decide)]
    exact (compress_optipng_ok E image options r h).2
  | oxiPng =>
    simp only [compress, halg] at h
    rw [if_neg (by decide)]
    exact (compress_oxipng_ok E image options r h).2
  | pngQuant =>
    simp only [compress, halg] at h
    rw [if_pos rfl]
    exact (compress_pngquant_ok E image options r h).2
  | webPLossy =>
    simp only [compress, halg] at h
    rw [if_neg (by decide)]
    exact (compress_webp_lossy_ok E image options r h).2
  | webPLossless =>
    simp only [compress, halg] at h
    rw [if_neg (by decide)]
    exact (compress_webp_lossless_ok E image options r h).2
  | avif =>
    simp only [compress, halg] at h
    rw [if_neg (by decide)]
    exact (compress_avif_ok E image options r h).2

/-
C9: termination and bounds of the integer binary search shared by
jpeg_target_size and mozjpeg_target_size.
-/

/-- One extra unit of fuel does not change fitLoop once the fuel covers
the bracket width (for positive lower bounds). -/
theorem fitLoop_fuel_succ (enc : Nat → List Nat) (target : Nat) :
    ∀ (fuel low high : Nat) (best : List Nat), 1 ≤ low →
      high + 1 - low ≤ fuel →
      fitLoop enc target (fuel + 1) low high best =
        fitLoop enc target fuel low high best := by
  intro fuel
  induction fuel with
  | zero =>
    intro low high best hlow hw
    have hlh : ¬ low ≤ high := by omega
    simp [fitLoop, hlh]
  | succ f ih =>
    intro low high best hlow hw
    by_cases hlh : low ≤ high
    · simp only [fitLoop, if_pos hlh]
      by_cases hfit : (enc ((low + high) / 2)).length ≤ target
      · simp only [if_pos hfit]
        exact ih ((low + high) / 2 + 1) high (enc ((low + high) / 2))
          (by omega) (by omega)
      · simp only [if_neg hfit]
        exact ih low ((low + high) / 2 - 1) best hlow (by omega)
    · simp [fitLoop, hlh]

/-- fitLoop from the (10, 95) start is the same for every fuel from 86 on:
the while loop terminates within the bracket width. -/
theorem fitLoop_fuel_stable (enc : Nat → List Nat) (target : Nat) :
    ∀ fuel, 86 ≤ fuel →
      fitLoop enc target fuel 10 95 [] = fitLoop enc target 86 10 95 [] := by
  intro fuel
  induction fuel with
  | zero => omega
  | succ f ih =>
    intro h
    rcases Nat.lt_or_ge f 86 with h' | h'
    · have hf : f + 1 = 86 := by omega
      rw [hf]
    · rw [fitLoop_fuel_succ enc target f 10 95 [] (by norm_num) (by omega)]
      exact ih h'

/-- The second component of the instrumented loop is the loop itself. -/
theorem fitLoopT_snd (enc : Nat → List Nat) (target : Nat) :
    ∀ (fuel low high : Nat) (best : List Nat),
      (fitLoopT enc target fuel low high best).2 =
        fitLoop enc target fuel low high best := by
  intro fuel
  induction fuel with
  | zero => intro low high best; rfl
  | succ f ih =>
    intro low high best
    by_cases hlh : low ≤ high
    · simp only [fitLoopT, fitLoop, if_pos hlh]
      by_cases hfit : (enc ((low + high) / 2)).length ≤ target
      · simp only [if_pos hfit]
        exact ih _ _ _
      · simp only [if_neg hfit]
        exact ih _ _ _
    · simp only [fitLoopT, fitLoop, if_neg hlh]

/-- Bracket invariant: every bracket the loop visits from inside
[10, 95] stays inside [10, 95] with its lower end at most its upper
end. -/
theorem fitLoopT_trace_bounds (enc : Nat → List Nat) (target : Nat) :
    ∀ (fuel low high : Nat) (best : List Nat), 10 ≤ low → high ≤ 95 →
      ∀ lh ∈ (fitLoopT enc target fuel low high best).1,
        10 ≤ lh.1 ∧ lh.1 ≤ lh.2 ∧ lh.2 ≤ 95 := by
  intro fuel
  induction fuel with
  | zero =>
    intro low high best h10 h95 lh hmem
    simp [fitLoopT] at hmem
  | succ f ih =>
    intro low high best h10 h95 lh hmem
    by_cases hlh : low ≤ high
    · by_cases hfit : (enc ((low + high) / 2)).length ≤ target
      · simp only [fitLoopT, if_pos hlh, if_pos hfit, List.mem_cons] at hmem
        rcases hmem with rfl | hmem
        · exact ⟨h10, hlh, h95⟩
        · exact ih ((low + high) / 2 + 1) high (enc ((low + high) / 2))
            (by omega) h95 lh hmem
      · simp only [fitLoopT, if_pos hlh, if_neg hfit, List.mem_cons] at hmem
        rcases hmem with rfl | hmem
        · exact ⟨h10, hlh, h95⟩
        · exact ih low ((low + high) / 2 - 1) best h10 (by omega) lh hmem
    · simp [fitLoopT, hlh] at hmem

/-- Strict shrinkage: along the visited brackets the width high + 1 - low
strictly decreases, and every visited width is bounded by the initial
one. -/
theorem fitLoopT_width_chain (enc : Nat → List Nat) (target : Nat) :
    ∀ (fuel low high : Nat) (best : List Nat), 1 ≤ low →
      List.Chain' (fun a b : Nat × Nat => b.2 + 1 - b.1 < a.2 + 1 - a.1)
        (fitLoopT enc target fuel low high best).1 ∧
      ∀ lh ∈ (fitLoopT enc target fuel low high best).1,
        lh.2 + 1 - lh.1 ≤ high + 1 - low := by
  intro fuel
  induction fuel with
  | zero =>
    intro low high best hlow
    exact ⟨by simp [fitLoopT], by intro lh hmem; simp [fitLoopT] at hmem⟩
  | succ f ih =>
    intro low high best hlow
    by_cases hlh : low ≤ high
    · by_cases hfit : (enc ((low + high) / 2)).length ≤ target
      · obtain ⟨ihc, ihb⟩ := ih ((low + high) / 2 + 1) high
          (enc ((low + high) / 2)) (by omega)
        simp only [fitLoopT, if_pos hlh, if_pos hfit]
        constructor
        · refine List.chain'_cons'.mpr ⟨?_, ihc⟩
          intro b hb
          have hbm := ihb b (List.mem_of_mem_head? hb)
          omega
        · intro lh hmem
          rcases List.mem_cons.mp hmem with rfl | hmem
          · omega
          · have := ihb lh hmem
            omega
      · obtain ⟨ihc, ihb⟩ := ih low ((low + high) / 2 - 1) best hlow
        simp only [fitLoopT, if_pos hlh, if_neg hfit]
        constructor
        · refine List.chain'_cons'.mpr ⟨?_, ihc⟩
          intro b hb
          have hbm := ihb b (List.mem_of_mem_head? hb)
          omega
        · intro lh hmem
          rcases List.mem_cons.mp hmem with rfl | hmem
          · omega
          · have := ihb lh hmem
            omega
    · refine ⟨by simp [fitLoopT, hlh], ?_⟩
      intro lh hmem
      simp [fitLoopT, hlh] at hmem

/-- The loop returns either its incoming best buffer or the encode of a
visited midpoint that met the budget. -/
theorem fitLoopT_result (enc : Nat → List Nat) (target : Nat) :
    ∀ (fuel low high : Nat) (best : List Nat),
      (fitLoopT enc target fuel low high best).2 = best ∨
      ∃ lh ∈ (fitLoopT enc target fuel low high best).1,
        (fitLoopT enc target fuel low high best).2 =
          enc ((lh.1 + lh.2) / 2) ∧
        (enc ((lh.1 + lh.2) / 2)).length ≤ target := by
  intro fuel
  induction fuel with
  | zero => intro low high best; exact Or.inl rfl
  | succ f ih =>
    intro low high best
    by_cases hlh : low ≤ high
    · by_cases hfit : (enc ((low + high) / 2)).length ≤ target
      · have htr : fitLoopT enc target (f + 1) low high best =
            ((low, high) ::
              (fitLoopT enc target f ((low + high) / 2 + 1) high
                (enc ((low + high) / 2))).1,
              (fitLoopT enc target f ((low + high) / 2 + 1) high
                (enc ((low + high) / 2))).2) := by
          simp [fitLoopT, hlh, hfit]
        rw [htr]
        rcases ih ((low + high) / 2 + 1) high (enc ((low + high) / 2)) with
          h | ⟨lh, hmem, heq, hf⟩
        · exact Or.inr ⟨(low, high), List.mem_cons_self _ _, h, hfit⟩
        · exact Or.inr ⟨lh, List.mem_cons_of_mem _ hmem, heq, hf⟩
      · have htr : fitLoopT enc target (f + 1) low high best =
            ((low, high) ::
              (fitLoopT enc target f low ((low + high) / 2 - 1) best).1,
              (fitLoopT enc target f low ((low + high) / 2 - 1) best).2) := by
          simp [fitLoopT, hlh, hfit]
        rw [htr]
        rcases ih low ((low + high) / 2 - 1) best with h | ⟨lh, hmem, heq, hf⟩
        · exact Or.inl h
        · exact Or.inr ⟨lh, List.mem_cons_of_mem _ hmem, heq, hf⟩
    · have htr : fitLoopT enc target (f + 1) low high best = ([], best) := by
        simp [fitLoopT, hlh]
      rw [htr]
      exact Or.inl rfl

/-- C9: the integer binary search terminates (any fuel from the initial
bracket width 86 on gives the same result from the (10, 95) start), every
visited bracket and midpoint stays inside [10, 95] with low + high at most
190 (so the u8 sums never overflow and midpoint - 1 never underflows), the
bracket width strictly shrinks every iteration (low rises past the
midpoint or high falls below it), the loop exits when the bounds cross,
and it returns the empty initial best or the encode of a visited midpoint
that met the budget; jpeg_target_size wraps the final best in Ok
unconditionally while mozjpeg_target_size turns an empty best into an
error. -/
theorem jpeg_binary_search_props (enc : Nat → List Nat) (target : Nat) :
    (∀ fuel, 86 ≤ fuel →
      fitLoop enc target fuel 10 95 [] = fitLoop enc target 86 10 95 []) ∧
    (∀ lh ∈ (fitLoopT enc target 96 10 95 []).1,
      10 ≤ lh.1 ∧ lh.1 ≤ lh.2 ∧ lh.2 ≤ 95 ∧ 10 ≤ (lh.1 + lh.2) / 2 ∧
        (lh.1 + lh.2) / 2 ≤ 95 ∧ lh.1 + lh.2 ≤ 190) ∧
    List.Chain' (fun a b : Nat × Nat => b.2 + 1 - b.1 < a.2 + 1 - a.1)
      (fitLoopT enc target 96 10 95 []).1 ∧
    (fitLoopT enc target 96 10 95 []).2 = fitLoop enc target 96 10 95 [] ∧
    (fitLoop enc target 96 10 95 [] = [] ∨
      ∃ lh ∈ (fitLoopT enc target 96 10 95 []).1,
        fitLoop enc target 96 10 95 [] = enc ((lh.1 + lh.2) / 2) ∧
        (enc ((lh.1 + lh.2) / 2)).length ≤ target) ∧
    (∀ (E : Encoders) (image : Img) (t : Nat) (web : Bool),
      jpeg_target_size E image t =
        Except.ok (fitLoop (fun q => E.jpegEncode q image) t 96 10 95 []) ∧
      mozjpeg_target_size E image t web =
        (if (fitLoop (fun q => E.mozjpegEncode q web image)
            t 96 10 95 []).isEmpty
          then Except.error "Could not achieve target file size with MozJPEG"
          else Except.ok (fitLoop (fun q => E.mozjpegEncode q web image)
            t 96 10 95 []))) := by
  refine ⟨fitLoop_fuel_stable enc target, ?_, ?_, fitLoopT_snd enc target _ _ _ _,
    ?_, fun E image t web => ⟨rfl, rfl⟩⟩
  · intro lh hmem
    obtain ⟨h1, h2, h3⟩ := fitLoopT_trace_bounds enc target 96 10 95 []
      (by norm_num) (by norm_num) lh hmem
    exact ⟨h1, h2, h3, by omega, by omega, by omega⟩
  · exact (fitLoopT_width_chain enc target 96 10 95 [] (by norm_num)).1
  · rcases fitLoopT_result enc target 96 10 95 [] with h | ⟨lh, hmem, heq, hf⟩
    · exact Or.inl ((fitLoopT_snd enc target 96 10 95 []).symm.trans h)
    · exact Or.inr ⟨lh, hmem,
        (fitLoopT_snd enc target 96 10 95 []).symm.trans heq, hf⟩

/-- Witness for C9 at a concrete encoder whose outputs always exceed the
target: stability at fuel 100, and the bounds at the initial bracket,
which the trace visits. -/
theorem jpeg_binary_search_props_witness :
    fitLoop (fun _ => [1, 2, 3]) 2 100 10 95 [] =
      fitLoop (fun _ => [1, 2, 3]) 2 86 10 95 [] ∧
    (10 ≤ 10 ∧ 10 ≤ 95 ∧ 95 ≤ 95 ∧ 10 ≤ (10 + 95) / 2 ∧
      (10 + 95) / 2 ≤ 95 ∧ 10 + 95 ≤ 190) :=
  ⟨(jpeg_binary_search_props (fun _ => [1, 2, 3]) 2).1 100 (by norm_num),
    (jpeg_binary_search_props (fun _ => [1, 2, 3]) 2).2.1 (10, 95) (by decide)⟩

/-
C6: the legacy/simple path compress_to_size with auto-scale.
-/

/-- When every encode of the image exceeds the byte budget the descending
quality loop fails. -/
theorem qualityLoop_none (encJpeg : Img → Nat → List Nat) (img : Img)
    (target_bytes : Nat)
    (H : ∀ q, target_bytes < (encJpeg img q).length) :
    ∀ qs : List Nat, qualityLoop encJpeg img target_bytes qs = none := by
  intro qs
  induction qs with
  | nil => rfl
  | cons q rest ih =>
    have hq := H q
    simp only [qualityLoop]
    rw [if_neg (by omega)]
    exact ih

/-- When every encode exceeds the byte budget, the fallback performs one
attempt per scale value, each at quality 75 with requested dimensions
derived from the current (already resized) image by that scale value, and
produces no buffer. -/
theorem fallbackSteps_never_fits (resize : Img → Nat → Nat → Img)
    (encJpeg : Img → Nat → List Nat) (target_bytes : Nat)
    (H : ∀ i q, target_bytes < (encJpeg i q).length) :
    ∀ (ss : List Dyadic) (img : Img),
      (fallbackSteps resize encJpeg target_bytes ss img).2 = none ∧
      List.Forall₂ (fun (att : FallbackAttempt) (s : Dyadic) =>
          att.quality = 75 ∧ att.wReq = reqDim att.wIn s ∧
          att.hReq = reqDim att.hIn s)
        (fallbackSteps resize encJpeg target_bytes ss img).1 ss := by
  intro ss
  induction ss with
  | nil => intro img; exact ⟨rfl, List.Forall₂.nil⟩
  | cons s rest ih =>
    intro img
    have hne := H (resize img (reqDim img.width s) (reqDim img.height s)) 75
    have htr : fallbackSteps resize encJpeg target_bytes (s :: rest) img =
        (⟨img.width, img.height, reqDim img.width s, reqDim img.height s,
            75⟩ ::
          (fallbackSteps resize encJpeg target_bytes rest
            (resize img (reqDim img.width s) (reqDim img.height s))).1,
          (fallbackSteps resize encJpeg target_bytes rest
            (resize img (reqDim img.width s) (reqDim img.height s))).2) := by
      simp only [fallbackSteps]
      rw [if_neg (by omega)]
    rw [htr]
    obtain ⟨h2, hf⟩ := ih (resize img (reqDim img.width s)
      (reqDim img.height s))
    exact ⟨h2, List.Forall₂.cons ⟨rfl, rfl, rfl⟩ hf⟩

/-- C6 counterexample: with a resize collaborator producing exactly the
requested dimensions, a 1000 x 1000 image and an unreachable budget, the
second fallback iteration requests width 728, not the 810 the claim
predicts as 0.9 squared of the original, and the sixth requests width 108,
far below the 0.5 floor of 500 the claim asserts; and the preceding
quality search descends 95, 90, ..., 20 in steps of 5, never reaching the
10 of the claimed [10, 95] range. -/
theorem simple_fallback_compounding_cex :
    compress_to_size cexResize cexEncJpeg ⟨1000, 1000, Layout.rgb8, []⟩ 0
      true = Except.error "Could not achieve target file size" ∧
    (fallbackSteps cexResize cexEncJpeg 0 (scaleSeq 100 c09)
      ⟨1000, 1000, Layout.rgb8, []⟩).1.map FallbackAttempt.wReq =
      [900, 728, 530, 347, 204, 108] ∧
    (728 : Nat) ≠ 810 ∧
    (108 : Nat) < 500 ∧
    qualityList =
      [95, 90, 85, 80, 75, 70, 65, 60, 55, 50, 45, 40, 35, 30, 25, 20] ∧
    10 ∉ qualityList := by
  refine ⟨by decide, by decide, by decide, by decide, by decide, by decide⟩

/-- C6 amended: in the legacy path with auto-scale, the quality search
descends over 95, 90, ..., 20 (step 5, not the [10, 95] binary-search
range); when no encode meets the budget, the fallback runs exactly six
iterations, whose scale values are the successive binary32 products 0.9,
0.9 * 0.9, ... (the multiplier variable, kept above 0.5), each iteration
requesting dimensions equal to the current, already resized, image scaled
by that compounded multiplier (so the overall dimensions fall far below
0.5 of the original), re-encoding at fixed quality 75, and the call
fails with the target-size error. -/
theorem compress_to_size_fallback_amended (resize : Img → Nat → Nat → Img)
    (encJpeg : Img → Nat → List Nat) (img : Img) (target_kb : Nat)
    (H : ∀ i q, target_kb * 1024 < (encJpeg i q).length) :
    compress_to_size resize encJpeg img target_kb true =
      Except.error "Could not achieve target file size" ∧
    qualityList =
      [95, 90, 85, 80, 75, 70, 65, 60, 55, 50, 45, 40, 35, 30, 25, 20] ∧
    scaleSeq 100 c09 =
      [⟨15099494, 24⟩, ⟨13589544, 24⟩, ⟨12230589, 24⟩,
        ⟨11007530, 24⟩, ⟨9906777, 24⟩, ⟨8916099, 24⟩] ∧
    (fallbackSteps resize encJpeg (target_kb * 1024)
      (scaleSeq 100 c09) img).2 = none ∧
    (fallbackSteps resize encJpeg (target_kb * 1024)
      (scaleSeq 100 c09) img).1.length = 6 ∧
    List.Forall₂ (fun (att : FallbackAttempt) (s : Dyadic) =>
        att.quality = 75 ∧ att.wReq = reqDim att.wIn s ∧
        att.hReq = reqDim att.hIn s)
      (fallbackSteps resize encJpeg (target_kb * 1024)
        (scaleSeq 100 c09) img).1
      (scaleSeq 100 c09) := by
  obtain ⟨h2, hf⟩ := fallbackSteps_never_fits resize encJpeg
    (target_kb * 1024) H (scaleSeq 100 c09) img
  have hql := qualityLoop_none encJpeg img (target_kb * 1024)
    (fun q => H img q) qualityList
  refine ⟨?_, by decide, by decide, h2, ?_, hf⟩
  · simp only [compress_to_size, hql, h2, if_true]
  · rw [List.Forall₂.length_eq hf]
    decide

/-- Witness for C6: the amended theorem applied to concrete collaborators
that never meet the budget. -/
theorem compress_to_size_fallback_amended_witness :
    compress_to_size cexResize cexEncJpeg ⟨600, 400, Layout.rgb8, []⟩ 0
      true = Except.error "Could not achieve target file size" :=
  (compress_to_size_fallback_amended cexResize cexEncJpeg
    ⟨600, 400, Layout.rgb8, []⟩ 0 (fun i q => by norm_num [cexEncJpeg])).1

/-- Witness for C7: the amended theorem applied to a concrete lossless
WebP request. -/
theorem compression_ratio_from_actual_bytes_witness :
    ({ data := [9, 9, 9, 9, 9], format := ImageFormat.webp,
       algorithm_used := CompressionAlgorithm.webPLossless,
       final_quality := none,
       compression_ratio := calculate_ratio cexImg [9, 9, 9, 9, 9] } :
        CompressionResult).compression_ratio =
      ((([9, 9, 9, 9, 9] : List Nat).length : Rat)) /
        ((estimate_raw_size
          (if resolvedAlgorithm cexImg
              ⟨CompressionAlgorithm.webPLossless, none, none, false, true⟩ =
              CompressionAlgorithm.pngQuant
            then quantize_image cexImg 256 else cexImg) : Nat) : Rat) :=
  (compression_ratio_from_actual_bytes cexEncoders cexImg
    ⟨CompressionAlgorithm.webPLossless, none, none, false, true⟩
    { data := [9, 9, 9, 9, 9], format := ImageFormat.webp,
      algorithm_used := CompressionAlgorithm.webPLossless,
      final_quality := none,
      compression_ratio := calculate_ratio cexImg [9, 9, 9, 9, 9] }
    rfl).1

end ImageResizer
